import Mathlib

/-!
Verification of the steam-id-processor request-dispatch and queue subsystem.

A shallow embedding of the JavaScript sources (`src/proxy-manager.js`,
`src/queue-manager.js`, `src/index.js`, `src/steam-validator.js`) into Lean 4,
together with theorems settling the frozen claims about cooldown backoff,
queue scheduling, connection selection, HTTP-client construction and queue
operations.

JavaScript objects whose keys are used as maps (`endpoint_cooldowns`,
`profile.checks`, the `backoffLevels` Map) are modelled as insertion-ordered
association lists, with `obj[k] = v` updating in place when the key exists and
appending otherwise, matching JS property-order semantics.  Timestamps
(`Date.now()`) are passed explicitly as a `now : Nat` argument.
-/

namespace SteamProc

/-- Association-list lookup: first entry whose key matches, as JS property read. -/
def alistLookup {α β : Type} [DecidableEq α] (l : List (α × β)) (k : α) : Option β :=
  (l.find? (fun kv => decide (kv.1 = k))).map Prod.snd

/-- Association-list write, JS `obj[k] = v`: update in place when the key is
present, append otherwise. -/
def alistSet {α β : Type} [DecidableEq α] (l : List (α × β)) (k : α) (v : β) :
    List (α × β) :=
  if l.any (fun kv => decide (kv.1 = k)) then
    l.map (fun kv => if kv.1 = k then (k, v) else kv)
  else
    l ++ [(k, v)]

/-- Association-list delete, JS `delete obj[k]` / `Map.delete`. -/
def alistRemove {α β : Type} [DecidableEq α] (l : List (α × β)) (k : α) :
    List (α × β) :=
  l.filter (fun kv => decide (kv.1 ≠ k))

theorem alistLookup_alistSet_self {α β : Type} [DecidableEq α]
    (l : List (α × β)) (k : α) (v : β) : alistLookup (alistSet l k v) k = some v := by
  unfold alistLookup alistSet
  by_cases hmem : l.any (fun kv => decide (kv.1 = k)) = true
  · rw [if_pos hmem]
    induction l with
    | nil => simp at hmem
    | cons hd tl ih =>
      by_cases hk : hd.1 = k
      · simp [List.find?_cons_of_pos, hk]
      · simp only [List.any_cons, Bool.or_eq_true, decide_eq_true_eq] at hmem
        rcases hmem with h | h
        · exact absurd h hk
        · rw [List.map_cons, if_neg hk,
            List.find?_cons_of_neg _ (by simpa using hk)]
          exact ih h
  · rw [if_neg hmem]
    simp only [Bool.not_eq_true, List.any_eq_false, decide_eq_true_eq] at hmem
    induction l with
    | nil => simp
    | cons hd tl ih =>
      have hhd : ¬ hd.1 = k := hmem hd (List.mem_cons_self hd tl)
      rw [List.cons_append, List.find?_cons_of_neg _ (by simpa using hhd)]
      exact ih (fun kv hkv => hmem kv (List.mem_cons_of_mem hd hkv))

theorem alistLookup_alistRemove_self {α β : Type} [DecidableEq α]
    (l : List (α × β)) (k : α) : alistLookup (alistRemove l k) k = none := by
  unfold alistLookup alistRemove
  induction l with
  | nil => simp
  | cons hd tl ih =>
    by_cases hk : hd.1 = k
    · rw [List.filter_cons_of_neg (by simpa using hk)]
      exact ih
    · rw [List.filter_cons_of_pos (by simpa using hk),
        List.find?_cons_of_neg _ (by simpa using hk)]
      exact ih

theorem alistSet_keys_of_mem {α β : Type} [DecidableEq α]
    (l : List (α × β)) (k : α) (v : β)
    (h : l.any (fun kv => decide (kv.1 = k)) = true) :
    (alistSet l k v).map Prod.fst = l.map Prod.fst := by
  unfold alistSet
  rw [if_pos h, List.map_map]
  apply List.map_congr_left
  intro kv _
  by_cases hk : kv.1 = k
  · simp [hk]
  · simp [hk]

/-! ## ProxyManager data model (`src/proxy-manager.js`)

One record of `endpoint_cooldowns.json` per connection, the in-memory
`backoffLevels` Map keyed by `"connectionIndex:endpoint"` (modelled as a
`Nat × String` key), the configured `backoffSequence` (minutes) and the
non-429 `cooldownDurations` table from `config/config.js`. -/

/-- One entry of `config_proxies.json`'s `connections` array. -/
structure Connection where
  ctype : String
  url : Option String
deriving Repr, DecidableEq

/-- A cooldown record stored in `endpoint_cooldowns[endpoint]`.  The 429 branch
writes `backoff_level`/`duration_minutes`; the non-429 branch writes
`duration_used`; each field is optional accordingly. -/
structure CooldownRecord where
  cooldown_until : Nat
  reason : String
  backoff_level : Option Nat
  applied_at : Nat
  error_message : String
  duration_minutes : Option Nat
  duration_used : Option Nat
deriving Repr, DecidableEq

/-- One entry of `endpoint_cooldowns.json`'s `connections` array. -/
structure CooldownConn where
  index : Nat
  ctype : String
  url : Option String
  endpoint_cooldowns : List (String × CooldownRecord)
deriving Repr, DecidableEq

/-- `CONFIG.COOLDOWN_DURATIONS` (milliseconds) for non-429 error categories. -/
structure CooldownDurations where
  connection_reset : Nat
  timeout : Nat
  dns_failure : Nat
  socks_error : Nat
  permanent : Nat
deriving Repr, DecidableEq

/-- The mutable state of a `ProxyManager` instance. -/
structure PMState where
  connections : List Connection
  cooldownConns : List CooldownConn
  cooldownDurations : CooldownDurations
  backoffSequence : List Nat
  currentProxyIndex : Nat
  backoffLevels : List ((Nat × String) × Nat)
deriving Repr, DecidableEq

/-- `Number.MAX_SAFE_INTEGER`, the sentinel in `getNextAvailableTimeForEndpoint`. -/
def maxSafeInteger : Nat := 2 ^ 53 - 1

/-- `getProxyConnections()`: all configured connections whose type is not
`direct`. -/
def getProxyConnections (s : PMState) : List Connection :=
  s.connections.filter (fun conn => decide (conn.ctype ≠ "direct"))

/-- `isConnectionAvailableForEndpoint(connectionIndex, endpoint)`: false when
the index is unknown, true when the cell has no record, otherwise true iff the
record has expired (`cooldown_until <= Date.now()`). -/
def isConnectionAvailableForEndpoint (s : PMState) (connectionIndex : Nat)
    (endpoint : String) (now : Nat) : Bool :=
  match s.cooldownConns.get? connectionIndex with
  | none => false
  | some conn =>
    match alistLookup conn.endpoint_cooldowns endpoint with
    | none => true
    | some cooldown => cooldown.cooldown_until ≤ now

/-- The cooldown record currently stored for cell `(connectionIndex, endpoint)`. -/
def recordAt (s : PMState) (connectionIndex : Nat) (endpoint : String) :
    Option CooldownRecord :=
  (s.cooldownConns.get? connectionIndex).bind
    (fun conn => alistLookup conn.endpoint_cooldowns endpoint)

/-- `markConnectionCooldownForEndpoint(connectionIndex, endpoint, errorType,
errorMessage)`.  The 429 branch advances the in-memory backoff level with
`min(level + 1, sequence.length - 1)` and writes a record whose duration is
`backoffSequence[newLevel]` minutes (with a 1-minute fallback guarded by
`newLevel >= sequence.length`, unreachable for a non-empty sequence); other
error types use the fixed configured durations, with a 60000 ms fallback for
unknown types. -/
def markConnectionCooldownForEndpoint (s : PMState) (connectionIndex : Nat)
    (endpoint errorType errorMessage : String) (now : Nat) : PMState :=
  match s.cooldownConns.get? connectionIndex with
  | none => s
  | some conn =>
    if errorType = "429" then
      let currentLevel := (alistLookup s.backoffLevels (connectionIndex, endpoint)).getD 0
      let newLevel := min (currentLevel + 1) (s.backoffSequence.length - 1)
      let backoffLevels' := alistSet s.backoffLevels (connectionIndex, endpoint) newLevel
      if s.backoffSequence.length ≤ newLevel then
        let fallbackMinutes := 1
        let record : CooldownRecord :=
          { cooldown_until := now + fallbackMinutes * 60 * 1000
            reason := "429"
            backoff_level := some newLevel
            applied_at := now
            error_message := errorMessage ++ " (FALLBACK USED)"
            duration_minutes := some fallbackMinutes
            duration_used := none }
        { s with
            backoffLevels := backoffLevels'
            cooldownConns := s.cooldownConns.set connectionIndex
              { conn with endpoint_cooldowns :=
                  alistSet conn.endpoint_cooldowns endpoint record } }
      else
        let cooldownMinutes := s.backoffSequence.getD newLevel 0
        let record : CooldownRecord :=
          { cooldown_until := now + cooldownMinutes * 60 * 1000
            reason := "429"
            backoff_level := some newLevel
            applied_at := now
            error_message := errorMessage
            duration_minutes := some cooldownMinutes
            duration_used := none }
        { s with
            backoffLevels := backoffLevels'
            cooldownConns := s.cooldownConns.set connectionIndex
              { conn with endpoint_cooldowns :=
                  alistSet conn.endpoint_cooldowns endpoint record } }
    else
      let cooldownDuration :=
        if errorType = "connection_error" then s.cooldownDurations.connection_reset
        else if errorType = "timeout" then s.cooldownDurations.timeout
        else if errorType = "dns_failure" then s.cooldownDurations.dns_failure
        else if errorType = "socks_error" then s.cooldownDurations.socks_error
        else 60000
      let record : CooldownRecord :=
        { cooldown_until := now + cooldownDuration
          reason := errorType
          backoff_level := none
          applied_at := now
          error_message := errorMessage
          duration_minutes := none
          duration_used := some cooldownDuration }
      { s with
          cooldownConns := s.cooldownConns.set connectionIndex
            { conn with endpoint_cooldowns :=
                alistSet conn.endpoint_cooldowns endpoint record } }

/-- `resetBackoffOnSuccess(connectionIndex, endpoint)`: drop the in-memory
backoff level for the cell and delete its file record when that record is a
429 cooldown; other records stay. -/
def resetBackoffOnSuccess (s : PMState) (connectionIndex : Nat)
    (endpoint : String) : PMState :=
  match s.cooldownConns.get? connectionIndex with
  | none => s
  | some conn =>
    let hadBackoffLevel := s.backoffLevels.any
      (fun kv => decide (kv.1 = (connectionIndex, endpoint)))
    let backoffLevels' :=
      if hadBackoffLevel then alistRemove s.backoffLevels (connectionIndex, endpoint)
      else s.backoffLevels
    let conn' :=
      match alistLookup conn.endpoint_cooldowns endpoint with
      | some cooldown =>
        if cooldown.reason = "429" then
          { conn with endpoint_cooldowns := alistRemove conn.endpoint_cooldowns endpoint }
        else conn
      | none => conn
    { s with
        backoffLevels := backoffLevels'
        cooldownConns := s.cooldownConns.set connectionIndex conn' }

/-- `getNextAvailableTimeForEndpoint(endpoint)`: fold the stored
`cooldown_until` values for the endpoint over all connections, starting from
the `MAX_SAFE_INTEGER` sentinel, and return 0 when no record was seen or the
clamped remaining time otherwise. -/
def getNextAvailableTimeForEndpoint (s : PMState) (endpoint : String)
    (now : Nat) : Nat :=
  let earliestTime := s.cooldownConns.foldl
    (fun earliest conn =>
      match alistLookup conn.endpoint_cooldowns endpoint with
      | some cooldown =>
        if cooldown.cooldown_until < earliest then cooldown.cooldown_until else earliest
      | none => earliest)
    maxSafeInteger
  if earliestTime = maxSafeInteger then 0 else earliestTime - now

/-- The body of `getBestConnectionForEndpoint`'s for-loop over proxy offsets:
probe `(currentProxyIndex + i) % numProxies` for each offset `i` in turn and
return the chosen actual connection index together with the updated
round-robin cursor. -/
def tryProxyOffsets (s : PMState) (endpoint : String) (now : Nat)
    (numProxies : Nat) : List Nat → Option (Nat × Nat)
  | [] => none
  | i :: rest =>
    let proxyIndex := (s.currentProxyIndex + i) % numProxies
    let actualConnectionIndex := proxyIndex + 1
    if isConnectionAvailableForEndpoint s actualConnectionIndex endpoint now then
      some (actualConnectionIndex, (proxyIndex + 1) % numProxies)
    else
      tryProxyOffsets s endpoint now numProxies rest

/-- `getBestConnectionForEndpoint(endpoint)`: direct connection (index 0)
first; otherwise round-robin over the proxies.  Returns the chosen connection
index paired with the resulting `currentProxyIndex`, or `none` when every
connection is cooled down. -/
def getBestConnectionForEndpoint (s : PMState) (endpoint : String) (now : Nat) :
    Option (Nat × Nat) :=
  if isConnectionAvailableForEndpoint s 0 endpoint now then
    some (0, s.currentProxyIndex)
  else
    let numProxies := (getProxyConnections s).length
    if numProxies = 0 then none
    else tryProxyOffsets s endpoint now numProxies (List.range numProxies)

/-- Whether the character list `p` occurs at the start of `s`
(JS `String.prototype.startsWith`, on exploded strings). -/
def startsWithChars : List Char → List Char → Bool
  | _, [] => true
  | [], _ :: _ => false
  | c :: cs, p :: ps => decide (c = p) && startsWithChars cs ps

/-- Whether the character list `p` occurs anywhere inside `s`
(JS `String.prototype.includes`, on exploded strings). -/
def containsChars : List Char → List Char → Bool
  | [], p => startsWithChars [] p
  | c :: rest, p => startsWithChars (c :: rest) p || containsChars rest p

/-- JS `s.includes(pattern)`. -/
def strIncludes (s pattern : String) : Bool := containsChars s.data pattern.data

/-- JS `s.startsWith(pattern)`. -/
def strStartsWith (s pattern : String) : Bool := startsWithChars s.data pattern.data

/-- `getEndpointName(url)`: substring classification, first hit wins. -/
def getEndpointName (url : String) : String :=
  if strIncludes url "GetFriendList" then "friends"
  else if strIncludes url "inventory" then "inventory"
  else if strIncludes url "GetSteamLevel" then "steam_level"
  else if strIncludes url "GetAnimatedAvatar" then "animated_avatar"
  else if strIncludes url "GetAvatarFrame" then "avatar_frame"
  else if strIncludes url "GetMiniProfileBackground" then "mini_profile_background"
  else if strIncludes url "GetProfileBackground" then "profile_background"
  else "other"

/-- `getTimeoutForEndpoint(endpointName)`: 25 s for the inventory class,
15 s otherwise. -/
def getTimeoutForEndpoint (endpointName : String) : Nat :=
  if endpointName = "inventory" then 25000 else 15000

/-- The `User-Agent` value set on every axios instance. -/
def uaString : String :=
  "Mozilla/5.0 (Windows NT 10.0; Win64; x64) AppleWebKit/537.36 (KHTML, like Gecko) Chrome/111.0.0.0 Safari/537.36"

/-- The three browser-like headers added for SOCKS5 inventory requests. -/
def secFetchHeaders : List (String × String) :=
  [("Sec-Fetch-Dest", "empty"), ("Sec-Fetch-Mode", "cors"), ("Sec-Fetch-Site", "same-origin")]

/-- The observable configuration of an axios instance built by
`createAxiosInstance`: timeout, headers, the `_connectionInfo` triple, and
whether a SOCKS agent was attached. -/
structure AxiosConfig where
  timeout : Nat
  headers : List (String × String)
  connectionIndex : Nat
  connectionType : String
  endpointName : String
  hasSocksAgent : Bool
deriving Repr, DecidableEq

/-- One step of `createAxiosInstance(endpoint)`: either the all-in-cooldown
sentinel object, a built client, a retry after marking a mis-configured SOCKS5
connection (`socks_error` cooldown, then the recursive call), or the crash that
a connection index missing from the config array would cause in JS. -/
inductive AxiosStep where
  | cooldown (nextAvailableIn : Nat) (endpointName : String)
  | client (cfg : AxiosConfig)
  | socksRetry (s' : PMState)
  | crash
deriving Repr, DecidableEq

/-- Single pass of `createAxiosInstance` (everything except the recursive
retry after a SOCKS5 configuration error, surfaced as `socksRetry`). -/
def createAxiosInstanceStep (s : PMState) (url : String) (now : Nat) : AxiosStep :=
  let endpointName := getEndpointName url
  match getBestConnectionForEndpoint s endpointName now with
  | none =>
    AxiosStep.cooldown (getNextAvailableTimeForEndpoint s endpointName now) endpointName
  | some (index, cursor') =>
    let s1 := { s with currentProxyIndex := cursor' }
    match s.connections.get? index with
    | none => AxiosStep.crash
    | some connection =>
      let baseConfig : AxiosConfig :=
        { timeout := getTimeoutForEndpoint endpointName
          headers := [("User-Agent", uaString)]
          connectionIndex := index
          connectionType := connection.ctype
          endpointName := endpointName
          hasSocksAgent := false }
      if connection.ctype = "socks5" then
        let urlOk := match connection.url with
          | some u => strStartsWith u "socks5://"
          | none => false
        if urlOk then
          AxiosStep.client
            { baseConfig with
                hasSocksAgent := true
                headers := baseConfig.headers ++
                  (if endpointName = "inventory" then secFetchHeaders else []) }
        else
          AxiosStep.socksRetry
            (markConnectionCooldownForEndpoint s1 index endpointName
              "socks_error" "Invalid SOCKS5 URL format" now)
      else
        AxiosStep.client baseConfig

/-- `createAxiosInstance` with an explicit recursion budget for the SOCKS5
configuration-error retry loop. -/
def createAxiosInstanceFuel : Nat → PMState → String → Nat → AxiosStep
  | 0, s, url, now => createAxiosInstanceStep s url now
  | fuel + 1, s, url, now =>
    match createAxiosInstanceStep s url now with
    | AxiosStep.socksRetry s' => createAxiosInstanceFuel fuel s' url now
    | r => r

/-! ## QueueManager data model (`src/queue-manager.js`)

The queue file is a JSON array of profile records; `checks` is a JS object and
is modelled as an insertion-ordered association list from check name to
status.  Operations return the new profile list together with the value the
JS method resolves to. -/

/-- One record of `profiles_queue.json`. -/
structure Profile where
  steam_id : String
  username : String
  timestamp : Nat
  checks : List (String × String)
deriving Repr, DecidableEq

/-- The fixed check map a freshly added profile receives. -/
def freshChecks : List (String × String) :=
  [("animated_avatar", "to_check"),
   ("avatar_frame", "to_check"),
   ("mini_profile_background", "to_check"),
   ("profile_background", "to_check"),
   ("steam_level", "to_check"),
   ("friends", "to_check"),
   ("csgo_inventory", "to_check")]

/-- The seven check names, in declaration order. -/
def checkNames : List String := freshChecks.map Prod.fst

/-- The closed status set accepted by `updateProfileCheck`. -/
def validStatuses : List String := ["to_check", "passed", "failed", "deferred"]

/-- The username validation in `addProfileToQueue`: rejected when the value is
missing, `null`, not a string, or falsy (the empty string).  `none` models any
non-string argument. -/
def validUsername : Option String → Bool
  | none => false
  | some u => decide (u ≠ "")

/-- The optional database pre-check performed when an `apiService` is passed to
`addProfileToQueue`: `none` models calling without an `apiService`; otherwise
the pair is `(success, exists)` of `checkSteamIdExists`. -/
def dbSaysExists : Option (Bool × Bool) → Bool
  | some (true, true) => true
  | _ => false

/-- `addProfileToQueue(steamId, username, apiService)` on the decoded profile
array.  Returns the new array and the resolved value: the existing profile on
a duplicate `steam_id`, `none` (JS `null`) when the database already has the
id or the username is invalid, and the freshly created profile otherwise. -/
def addProfileToQueue (profiles : List Profile) (steamId : String)
    (username : Option String) (apiCheck : Option (Bool × Bool)) (now : Nat) :
    List Profile × Option Profile :=
  match profiles.find? (fun p => decide (p.steam_id = steamId)) with
  | some existing => (profiles, some existing)
  | none =>
    if dbSaysExists apiCheck then (profiles, none)
    else if validUsername username = false then (profiles, none)
    else
      let profile : Profile :=
        { steam_id := steamId
          username := username.getD ""
          timestamp := now
          checks := freshChecks }
      (profiles ++ [profile], some profile)

/-- `updateProfileCheck(steamId, checkName, status)`: locate the profile,
validate the status against the closed set, then write
`profiles[i].checks[checkName] = status` (which appends a brand-new key when
`checkName` is unknown).  Returns the updated array and the boolean result. -/
def updateProfileCheck (profiles : List Profile) (steamId checkName status : String) :
    List Profile × Bool :=
  match profiles.findIdx? (fun p => decide (p.steam_id = steamId)) with
  | none => (profiles, false)
  | some profileIndex =>
    if validStatuses.contains status = false then (profiles, false)
    else
      match profiles.get? profileIndex with
      | none => (profiles, false)
      | some p =>
        (profiles.set profileIndex
          { p with checks := alistSet p.checks checkName status }, true)

/-- `removeProfileFromQueue(steamId)`: filter the profile out; the boolean
tells whether anything was removed. -/
def removeProfileFromQueue (profiles : List Profile) (steamId : String) :
    List Profile × Bool :=
  let filteredProfiles := profiles.filter (fun p => decide (p.steam_id ≠ steamId))
  if filteredProfiles.length < profiles.length then (filteredProfiles, true)
  else (profiles, false)

/-- `Object.values(profile.checks).some(status => status === st)`. -/
def hasCheckStatus (p : Profile) (st : String) : Bool :=
  p.checks.any (fun kv => decide (kv.2 = st))

/-- `getNextProcessableProfile()`: one forward scan returning the first
profile that has a `to_check` check or has neither `to_check` nor `deferred`
checks; failing that, the first profile with a `deferred` check; else `none`. -/
def getNextProcessableProfile (profiles : List Profile) : Option Profile :=
  if profiles.isEmpty then none
  else
    match profiles.find? (fun p =>
        hasCheckStatus p "to_check" ||
        (!hasCheckStatus p "to_check" && !hasCheckStatus p "deferred")) with
    | some p => some p
    | none => profiles.find? (fun p => hasCheckStatus p "deferred")

/-! ## Check scheduler (`src/index.js`, `processQueuedProfiles` check loop)

The per-profile loop over the checks in `to_check` state is modelled as a
function from an oracle (the outcome each validator check would produce) to
the list of observable scheduler actions: upstream dispatches, queue status
updates and profile removal. -/

/-- The fields of a validator check result the scheduler inspects. -/
structure CheckOutcome where
  success : Bool
  passed : Bool
  deferredFlag : Bool
  note : Option String
deriving Repr, DecidableEq

/-- An observable action of the scheduler's check loop. -/
inductive SchedEvent where
  | dispatch (check : String)
  | update (check : String) (status : String)
  | remove
deriving Repr, DecidableEq

/-- The check names the scheduler's `switch` dispatches to the validator. -/
def knownChecks : List String :=
  ["animated_avatar", "avatar_frame", "mini_profile_background",
   "profile_background", "steam_level", "friends", "csgo_inventory"]

/-- `note.includes("Empty response from API")` guarded by the result being a
success with a note, as in the scheduler's private-profile detection. -/
def detectsPrivate (r : CheckOutcome) : Bool :=
  r.success &&
    (match r.note with
     | some n => strIncludes n "Empty response from API"
     | none => false)

/-- The scheduler's loop over `checksToRun` with the `isPrivateProfile` flag:
auto-pass `friends`/`csgo_inventory` once the flag is set; otherwise dispatch
the check (unknown names yield the synthetic failure of the `default` case),
flip the flag after a `steam_level` empty response, then mark the check
`deferred` on non-success, remove the profile and stop on a validation
failure, and mark `passed` on success. -/
def runChecks (oracle : String → CheckOutcome) :
    List String → Bool → List SchedEvent
  | [], _ => []
  | checkName :: rest, isPrivateProfile =>
    let isRateLimitedCheck := checkName = "friends" || checkName = "csgo_inventory"
    if isPrivateProfile && isRateLimitedCheck then
      SchedEvent.update checkName "passed" :: runChecks oracle rest isPrivateProfile
    else
      let known := knownChecks.contains checkName
      let dispatched := if known then [SchedEvent.dispatch checkName] else []
      let checkResult :=
        if known then oracle checkName
        else { success := false, passed := false, deferredFlag := false, note := none }
      let isPrivateProfile' :=
        if checkName = "steam_level" && detectsPrivate checkResult then true
        else isPrivateProfile
      if !checkResult.success then
        if checkResult.deferredFlag then
          dispatched ++ SchedEvent.update checkName "deferred" ::
            runChecks oracle rest isPrivateProfile'
        else
          dispatched ++ SchedEvent.update checkName "deferred" ::
            runChecks oracle rest isPrivateProfile'
      else if !checkResult.passed then
        dispatched ++ [SchedEvent.remove]
      else
        dispatched ++ SchedEvent.update checkName "passed" ::
          runChecks oracle rest isPrivateProfile'

/-- The outcome `checkSteamLevel` produces for an empty `response` object:
success, passed, with the private-profile note. -/
def privateLevelOutcome : CheckOutcome :=
  { success := true
    passed := true
    deferredFlag := false
    note := some "Empty response from API - private profile detected" }

/-! ## General helper lemmas -/

theorem get?_set_self {α : Type} (l : List α) (i : Nat) (a : α)
    (h : i < l.length) : (l.set i a).get? i = some a := by
  induction l generalizing i with
  | nil => simp at h
  | cons hd tl ih =>
    cases i with
    | zero => rfl
    | succ n =>
      simp only [List.set, List.get?]
      exact ih n (by simpa using h)

theorem alistLookup_eq_none_of_any_eq_false {α β : Type} [DecidableEq α]
    (l : List (α × β)) (k : α)
    (h : l.any (fun kv => decide (kv.1 = k)) = false) :
    alistLookup l k = none := by
  unfold alistLookup
  rw [List.find?_eq_none.mpr]
  · rfl
  · intro kv hkv
    simp only [List.any_eq_false, decide_eq_true_eq] at h
    simpa using h kv hkv

theorem find?_append_of_none {α : Type} (p : α → Bool) (l₁ l₂ : List α)
    (h : l₁.find? p = none) : (l₁ ++ l₂).find? p = l₂.find? p := by
  induction l₁ with
  | nil => simp
  | cons hd tl ih =>
    cases hp : p hd with
    | true =>
      rw [List.find?_cons_of_pos _ hp] at h
      exact absurd h (by simp)
    | false =>
      rw [List.find?_cons_of_neg _ (by simp [hp])] at h
      rw [List.cons_append, List.find?_cons_of_neg _ (by simp [hp])]
      exact ih h

theorem find?_congr_pred {α : Type} (p q : α → Bool) (l : List α)
    (h : ∀ a ∈ l, p a = q a) : l.find? p = l.find? q := by
  induction l with
  | nil => rfl
  | cons hd tl ih =>
    have hhd := h hd (List.mem_cons_self hd tl)
    cases hp : p hd with
    | true =>
      rw [List.find?_cons_of_pos _ hp, List.find?_cons_of_pos _ (hhd ▸ hp)]
    | false =>
      rw [List.find?_cons_of_neg _ (by simp [hp]),
        List.find?_cons_of_neg _ (by simp [hhd ▸ hp])]
      exact ih (fun a ha => h a (List.mem_cons_of_mem hd ha))

theorem foldl_min_le_init (l : List Nat) (a : Nat) : l.foldl min a ≤ a := by
  induction l generalizing a with
  | nil => simp
  | cons hd tl ih =>
    calc (hd :: tl).foldl min a = tl.foldl min (min a hd) := rfl
    _ ≤ min a hd := ih (min a hd)
    _ ≤ a := Nat.min_le_left a hd

theorem foldl_min_le_mem (l : List Nat) (a x : Nat) (hx : x ∈ l) :
    l.foldl min a ≤ x := by
  induction l generalizing a with
  | nil => simp at hx
  | cons hd tl ih =>
    rcases List.mem_cons.mp hx with h | h
    · subst h
      calc (x :: tl).foldl min a = tl.foldl min (min a x) := rfl
      _ ≤ min a x := foldl_min_le_init tl (min a x)
      _ ≤ x := Nat.min_le_right a x
    · exact ih (min a hd) h

theorem foldl_min_eq_init_or_mem (l : List Nat) (a : Nat) :
    l.foldl min a = a ∨ l.foldl min a ∈ l := by
  induction l generalizing a with
  | nil => exact Or.inl rfl
  | cons hd tl ih =>
    have hstep : (hd :: tl).foldl min a = tl.foldl min (min a hd) := rfl
    rcases ih (min a hd) with h | h
    · rcases Nat.le_total a hd with hle | hle
      · exact Or.inl (by rw [hstep, h, Nat.min_eq_left hle])
      · refine Or.inr ?_
        rw [hstep, h, Nat.min_eq_right hle]
        exact List.mem_cons_self hd tl
    · exact Or.inr (List.mem_cons_of_mem hd (hstep ▸ h))

/-! ## 429 backoff progression -/

/-- `k` successive 429 marks on the same cell (all at clock value `now`). -/
def mark429Iter (s : PMState) (c : Nat) (e msg : String) (now : Nat) :
    Nat → PMState
  | 0 => s
  | k + 1 =>
    markConnectionCooldownForEndpoint (mark429Iter s c e msg now k) c e "429" msg now

/-- What a single 429 mark does to the marked cell: the in-memory level
becomes `min(level + 1, len − 1)` and the stored record carries that level and
`backoffSequence[newLevel]` minutes. -/
theorem mark429_spec (s : PMState) (c : Nat) (e msg : String) (now : Nat)
    (hc : c < s.cooldownConns.length)
    (hL : 1 ≤ s.backoffSequence.length) :
    (markConnectionCooldownForEndpoint s c e "429" msg now).backoffSequence = s.backoffSequence
  ∧ (markConnectionCooldownForEndpoint s c e "429" msg now).cooldownConns.length
      = s.cooldownConns.length
  ∧ alistLookup (markConnectionCooldownForEndpoint s c e "429" msg now).backoffLevels (c, e)
      = some (min ((alistLookup s.backoffLevels (c, e)).getD 0 + 1)
          (s.backoffSequence.length - 1))
  ∧ recordAt (markConnectionCooldownForEndpoint s c e "429" msg now) c e = some
      { cooldown_until := now +
          (s.backoffSequence.getD
            (min ((alistLookup s.backoffLevels (c, e)).getD 0 + 1)
              (s.backoffSequence.length - 1)) 0) * 60 * 1000
        reason := "429"
        backoff_level := some (min ((alistLookup s.backoffLevels (c, e)).getD 0 + 1)
          (s.backoffSequence.length - 1))
        applied_at := now
        error_message := msg
        duration_minutes := some (s.backoffSequence.getD
          (min ((alistLookup s.backoffLevels (c, e)).getD 0 + 1)
            (s.backoffSequence.length - 1)) 0)
        duration_used := none } := by
  obtain ⟨conn, hconn⟩ : ∃ conn, s.cooldownConns.get? c = some conn :=
    ⟨_, List.get?_eq_get hc⟩
  have hguard : ¬ (s.backoffSequence.length ≤
      min ((alistLookup s.backoffLevels (c, e)).getD 0 + 1)
        (s.backoffSequence.length - 1)) := by
    have := Nat.min_le_right ((alistLookup s.backoffLevels (c, e)).getD 0 + 1)
      (s.backoffSequence.length - 1)
    omega
  simp only [markConnectionCooldownForEndpoint, hconn, if_pos rfl, if_true,
    if_neg hguard, recordAt]
  refine ⟨trivial, List.length_set _ _ _, alistLookup_alistSet_self _ _ _, ?_⟩
  rw [get?_set_self _ _ _ hc]
  exact alistLookup_alistSet_self _ _ _

/-- Levels and records along an iteration of 429 marks started on a cell with
no in-memory backoff state. -/
theorem mark429Iter_spec (s : PMState) (c : Nat) (e msg : String) (now : Nat)
    (hc : c < s.cooldownConns.length)
    (hL : 1 ≤ s.backoffSequence.length)
    (hfresh : alistLookup s.backoffLevels (c, e) = none) :
    ∀ k, 1 ≤ k →
    (mark429Iter s c e msg now k).backoffSequence = s.backoffSequence
  ∧ (mark429Iter s c e msg now k).cooldownConns.length = s.cooldownConns.length
  ∧ alistLookup (mark429Iter s c e msg now k).backoffLevels (c, e)
      = some (min k (s.backoffSequence.length - 1))
  ∧ recordAt (mark429Iter s c e msg now k) c e = some
      { cooldown_until := now +
          (s.backoffSequence.getD (min k (s.backoffSequence.length - 1)) 0) * 60 * 1000
        reason := "429"
        backoff_level := some (min k (s.backoffSequence.length - 1))
        applied_at := now
        error_message := msg
        duration_minutes := some
          (s.backoffSequence.getD (min k (s.backoffSequence.length - 1)) 0)
        duration_used := none } := by
  intro k
  induction k with
  | zero => omega
  | succ n ih =>
    intro _
    by_cases hn : 1 ≤ n
    · obtain ⟨hseq, hlen, hlevel, _⟩ := ih hn
      have hstep := mark429_spec (mark429Iter s c e msg now n) c e msg now
        (by rw [hlen]; exact hc) (by rw [hseq]; exact hL)
      rw [hseq, hlevel] at hstep
      have harith : min (min n (s.backoffSequence.length - 1) + 1)
          (s.backoffSequence.length - 1)
          = min (n + 1) (s.backoffSequence.length - 1) := by omega
      simp only [Option.getD_some] at hstep
      rw [harith] at hstep
      exact ⟨hstep.1, hstep.2.1.trans hlen, hstep.2.2.1, hstep.2.2.2⟩
    · have hn0 : n = 0 := by omega
      subst hn0
      have hstep := mark429_spec s c e msg now hc hL
      rw [hfresh] at hstep
      simpa using hstep

/-- A ProxyManager state with only the direct connection, no cooldowns, no
backoff levels, and backoff sequence `[1, 2, 4]` (spec scenario 3). -/
def exDirectOnly : PMState :=
  { connections := [⟨"direct", none⟩]
    cooldownConns := [⟨0, "direct", none, []⟩]
    cooldownDurations := ⟨600000, 300000, 900000, 900000, 86400000⟩
    backoffSequence := [1, 2, 4]
    currentProxyIndex := 0
    backoffLevels := [] }

/-- C1 (amended): starting from a cell with no backoff state, `k ≥ 1`
successive 429 marks leave the in-memory level at `min(k, len(sequence)−1)`,
and the `k`-th mark writes a 429 record whose level is that value and whose
duration is `sequence[min(k, len(sequence)−1)]` minutes — so the first 429
already uses `sequence[min(1, len−1)]` (skipping `sequence[0]` whenever the
sequence has at least two elements), and the progression saturates at the
final element. -/
theorem claim_C1_backoff_progression (s : PMState) (c : Nat) (e msg : String)
    (now k : Nat) (hc : c < s.cooldownConns.length)
    (hL : 1 ≤ s.backoffSequence.length)
    (hfresh : alistLookup s.backoffLevels (c, e) = none)
    (hk : 1 ≤ k) :
    alistLookup (mark429Iter s c e msg now k).backoffLevels (c, e)
      = some (min k (s.backoffSequence.length - 1))
  ∧ recordAt (mark429Iter s c e msg now k) c e = some
      { cooldown_until := now +
          (s.backoffSequence.getD (min k (s.backoffSequence.length - 1)) 0) * 60 * 1000
        reason := "429"
        backoff_level := some (min k (s.backoffSequence.length - 1))
        applied_at := now
        error_message := msg
        duration_minutes := some
          (s.backoffSequence.getD (min k (s.backoffSequence.length - 1)) 0)
        duration_used := none } := by
  have h := mark429Iter_spec s c e msg now hc hL hfresh k hk
  exact ⟨h.2.2.1, h.2.2.2⟩

/-- C1 witness: two 429s on the fresh direct/`friends` cell of `exDirectOnly`
(sequence `[1,2,4]`) leave level `min 2 2 = 2` and a 4-minute record. -/
theorem claim_C1_backoff_progression_witness :
    alistLookup (mark429Iter exDirectOnly 0 "friends" "msg" 1000 2).backoffLevels
        (0, "friends") = some (min 2 (exDirectOnly.backoffSequence.length - 1))
  ∧ recordAt (mark429Iter exDirectOnly 0 "friends" "msg" 1000 2) 0 "friends" = some
      { cooldown_until := 1000 +
          (exDirectOnly.backoffSequence.getD
            (min 2 (exDirectOnly.backoffSequence.length - 1)) 0) * 60 * 1000
        reason := "429"
        backoff_level := some (min 2 (exDirectOnly.backoffSequence.length - 1))
        applied_at := 1000
        error_message := "msg"
        duration_minutes := some (exDirectOnly.backoffSequence.getD
          (min 2 (exDirectOnly.backoffSequence.length - 1)) 0)
        duration_used := none } :=
  claim_C1_backoff_progression exDirectOnly 0 "friends" "msg" 1000 2
    (by decide) (by decide) rfl (by decide)

/-- C1 counterexample: with backoff sequence `[1, 2, 4]`, the very first 429
on a fresh cell stores backoff level 1 and a 2-minute duration, not level
`min(1−1, len−1) = 0` with duration `sequence[0] = 1` minute as the claim
states. -/
theorem claim_C1_counterexample :
    alistLookup (mark429Iter exDirectOnly 0 "friends" "msg" 1000 1).backoffLevels
        (0, "friends") = some 1
  ∧ min (1 - 1) (exDirectOnly.backoffSequence.length - 1) = 0
  ∧ (recordAt (mark429Iter exDirectOnly 0 "friends" "msg" 1000 1) 0 "friends").map
        CooldownRecord.duration_minutes = some (some 2)
  ∧ exDirectOnly.backoffSequence.getD 0 0 = 1
  ∧ (some 1 : Option Nat) ≠ some 0
  ∧ (some 2 : Option Nat) ≠ some 1 := by decide

/-! ## Reset on success -/

/-- C7: after `resetBackoffOnSuccess(c, e)` on an existing connection, the
in-memory BackoffLevel entry for `(c, e)` is gone, the cell holds no 429
record, and a non-429 record for the cell survives unchanged. -/
theorem claim_C7_reset_on_success (s : PMState) (c : Nat) (e : String)
    (hc : c < s.cooldownConns.length) :
    alistLookup (resetBackoffOnSuccess s c e).backoffLevels (c, e) = none
  ∧ (∀ r, recordAt (resetBackoffOnSuccess s c e) c e = some r → r.reason ≠ "429")
  ∧ (∀ r, recordAt s c e = some r → r.reason ≠ "429" →
      recordAt (resetBackoffOnSuccess s c e) c e = some r) := by
  obtain ⟨conn, hconn⟩ : ∃ conn, s.cooldownConns.get? c = some conn :=
    ⟨_, List.get?_eq_get hc⟩
  have hrecs : recordAt s c e = alistLookup conn.endpoint_cooldowns e := by
    unfold recordAt
    rw [hconn]
    rfl
  refine ⟨?_, ?_, ?_⟩
  · simp only [resetBackoffOnSuccess, hconn]
    by_cases hhad : s.backoffLevels.any (fun kv => decide (kv.1 = (c, e))) = true
    · simp only [hhad, if_true]
      exact alistLookup_alistRemove_self _ _
    · simp only [eq_false_of_ne_true hhad, if_false]
      exact alistLookup_eq_none_of_any_eq_false _ _ (eq_false_of_ne_true hhad)
  · intro r hr
    cases hcd : alistLookup conn.endpoint_cooldowns e with
    | none =>
      have hres : recordAt (resetBackoffOnSuccess s c e) c e = none := by
        simp only [resetBackoffOnSuccess, hconn, hcd, recordAt]
        rw [get?_set_self _ _ _ hc]
        exact hcd
      rw [hres] at hr
      exact absurd hr (by simp)
    | some cd =>
      by_cases hreason : cd.reason = "429"
      · have hres : recordAt (resetBackoffOnSuccess s c e) c e = none := by
          simp only [resetBackoffOnSuccess, hconn, hcd, recordAt, hreason, if_true]
          rw [get?_set_self _ _ _ hc]
          exact alistLookup_alistRemove_self _ _
        rw [hres] at hr
        exact absurd hr (by simp)
      · have hres : recordAt (resetBackoffOnSuccess s c e) c e = some cd := by
          simp only [resetBackoffOnSuccess, hconn, hcd, recordAt, if_neg hreason]
          rw [get?_set_self _ _ _ hc]
          exact hcd
        rw [hres] at hr
        obtain rfl : cd = r := by injection hr
        exact hreason
  · intro r hsome hreason
    rw [hrecs] at hsome
    simp only [resetBackoffOnSuccess, hconn, hsome, recordAt, if_neg hreason]
    rw [get?_set_self _ _ _ hc]
    exact hsome

/-- A state with one direct connection carrying a 429 `friends` record (level
1 in memory) and a non-429 `steam_level` record. -/
def exResetState : PMState :=
  { connections := [⟨"direct", none⟩]
    cooldownConns := [⟨0, "direct", none,
      [("friends", ⟨200000, "429", some 1, 100, "rate", some 2, none⟩),
       ("steam_level", ⟨300000, "timeout", none, 100, "t", none, some 300000⟩)]⟩]
    cooldownDurations := ⟨600000, 300000, 900000, 900000, 86400000⟩
    backoffSequence := [1, 2, 4]
    currentProxyIndex := 0
    backoffLevels := [((0, "friends"), 1)] }

/-- C7 witness: resetting the `steam_level` cell of `exResetState` leaves no
backoff entry and keeps the non-429 `timeout` record intact. -/
theorem claim_C7_reset_on_success_witness :
    0 < exResetState.cooldownConns.length
  ∧ alistLookup (resetBackoffOnSuccess exResetState 0 "steam_level").backoffLevels
      (0, "steam_level") = none
  ∧ recordAt (resetBackoffOnSuccess exResetState 0 "steam_level") 0 "steam_level"
      = some ⟨300000, "timeout", none, 100, "t", none, some 300000⟩ := by
  have h := claim_C7_reset_on_success exResetState 0 "steam_level" (by decide)
  exact ⟨by decide, h.1, h.2.2 ⟨300000, "timeout", none, 100, "t", none, some 300000⟩
    (by decide) (by decide)⟩

/-! ## Next-available time for an endpoint -/

/-- The `cooldown_until` stamps recorded for endpoint `e`, one per connection
that has a record, in connection order. -/
def recordedUntils (s : PMState) (e : String) : List Nat :=
  s.cooldownConns.filterMap
    (fun conn => (alistLookup conn.endpoint_cooldowns e).map CooldownRecord.cooldown_until)

theorem nextAvailable_fold_eq (s : PMState) (e : String) :
    (s.cooldownConns.foldl
      (fun earliest conn =>
        match alistLookup conn.endpoint_cooldowns e with
        | some cooldown =>
          if cooldown.cooldown_until < earliest then cooldown.cooldown_until else earliest
        | none => earliest)
      maxSafeInteger) = (recordedUntils s e).foldl min maxSafeInteger := by
  unfold recordedUntils
  generalize maxSafeInteger = a
  induction s.cooldownConns generalizing a with
  | nil => rfl
  | cons hd tl ih =>
    cases hcd : alistLookup hd.endpoint_cooldowns e with
    | none =>
      simp only [List.foldl_cons, List.filterMap_cons, hcd, Option.map_none']
      exact ih a
    | some cd =>
      simp only [List.foldl_cons, List.filterMap_cons, hcd, Option.map_some']
      have : (if cd.cooldown_until < a then cd.cooldown_until else a)
          = min a cd.cooldown_until := by
        rcases Nat.lt_or_ge cd.cooldown_until a with h | h
        · rw [if_pos h, Nat.min_eq_right (Nat.le_of_lt h)]
        · rw [if_neg (by omega), Nat.min_eq_left h]
      rw [this]
      exact ih (min a cd.cooldown_until)

/-- C4 (amended): `getNextAvailableTimeForEndpoint(e)` looks only at
connections that have a record for `e`.  It returns 0 when no record exists;
otherwise it returns the minimum over the *recorded* cells of the clamped
remaining time `cooldown_until − now` — in particular 0 as soon as some
recorded cooldown has expired, but a record-less (hence available) connection
does not force the result to 0. -/
theorem claim_C4_next_available_characterization (s : PMState) (e : String)
    (now : Nat)
    (hbound : ∀ u ∈ recordedUntils s e, u < maxSafeInteger) :
    (recordedUntils s e = [] → getNextAvailableTimeForEndpoint s e now = 0)
  ∧ (∀ u ∈ recordedUntils s e, getNextAvailableTimeForEndpoint s e now ≤ u - now)
  ∧ (recordedUntils s e ≠ [] →
      ∃ u ∈ recordedUntils s e, getNextAvailableTimeForEndpoint s e now = u - now) := by
  have hfold : getNextAvailableTimeForEndpoint s e now =
      (if (recordedUntils s e).foldl min maxSafeInteger = maxSafeInteger then 0
       else (recordedUntils s e).foldl min maxSafeInteger - now) := by
    unfold getNextAvailableTimeForEndpoint
    rw [nextAvailable_fold_eq]
  refine ⟨?_, ?_, ?_⟩
  · intro hnil
    rw [hfold, hnil]
    simp
  · intro u hu
    have hmin_le : (recordedUntils s e).foldl min maxSafeInteger ≤ u :=
      foldl_min_le_mem _ _ _ hu
    rw [hfold]
    by_cases hsent : (recordedUntils s e).foldl min maxSafeInteger = maxSafeInteger
    · simp [hsent]
    · rw [if_neg hsent]
      omega
  · intro hne
    rcases foldl_min_eq_init_or_mem (recordedUntils s e) maxSafeInteger with h | h
    · obtain ⟨u, hu⟩ : ∃ u, u ∈ recordedUntils s e := by
        cases hl : recordedUntils s e with
        | nil => exact absurd hl hne
        | cons a l => exact ⟨a, hl ▸ List.mem_cons_self a l⟩
      have : (recordedUntils s e).foldl min maxSafeInteger ≤ u :=
        foldl_min_le_mem _ _ _ hu
      have := hbound u hu
      omega
    · refine ⟨(recordedUntils s e).foldl min maxSafeInteger, h, ?_⟩
      have hne' : (recordedUntils s e).foldl min maxSafeInteger ≠ maxSafeInteger := by
        have := hbound _ h
        omega
      rw [hfold, if_neg hne']

/-- A state where the direct connection has no `friends` record (so it is
available) while the proxy holds an unexpired `friends` record. -/
def exMixedState : PMState :=
  { connections := [⟨"direct", none⟩, ⟨"socks5", some "socks5://u:p@h:1"⟩]
    cooldownConns := [⟨0, "direct", none, []⟩,
      ⟨1, "socks5", some "socks5://u:p@h:1",
        [("friends", ⟨105, "timeout", none, 0, "t", none, some 5⟩)]⟩]
    cooldownDurations := ⟨600000, 300000, 900000, 900000, 86400000⟩
    backoffSequence := [1, 2, 4]
    currentProxyIndex := 0
    backoffLevels := [] }

/-- C4 witness: on `exMixedState` (one recorded cell, until 105, clock 100)
there are recorded stamps below the sentinel and the function's value is
bounded by the recorded remaining time. -/
theorem claim_C4_next_available_characterization_witness :
    recordedUntils exMixedState "friends" ≠ []
  ∧ (105 : Nat) < maxSafeInteger
  ∧ getNextAvailableTimeForEndpoint exMixedState "friends" 100 ≤ 105 - 100 := by
  have h := claim_C4_next_available_characterization exMixedState "friends" 100
    (by decide)
  exact ⟨by decide, by decide, h.2.1 105 (by decide)⟩

/-- C4 counterexample: in `exMixedState` at clock 100 the direct connection is
available for `friends` (no record), yet `getNextAvailableTimeForEndpoint`
returns 5, not the 0 the claim demands whenever some connection is
available. -/
theorem claim_C4_counterexample :
    isConnectionAvailableForEndpoint exMixedState 0 "friends" 100 = true
  ∧ getNextAvailableTimeForEndpoint exMixedState "friends" 100 = 5
  ∧ (5 : Nat) ≠ 0 := by decide

/-! ## Connection selection (direct first, then round-robin proxies) -/

/-- Specification reading of the round-robin rule: the least probe offset
from the current cursor whose proxy connection is available. -/
def firstAvailOffset (s : PMState) (endpoint : String) (now : Nat)
    (numProxies : Nat) : Option Nat :=
  (List.range numProxies).find? (fun i =>
    isConnectionAvailableForEndpoint s ((s.currentProxyIndex + i) % numProxies + 1)
      endpoint now)

theorem tryProxyOffsets_eq_find? (s : PMState) (endpoint : String) (now : Nat)
    (n : Nat) (l : List Nat) :
    tryProxyOffsets s endpoint now n l =
      (l.find? (fun i =>
        isConnectionAvailableForEndpoint s ((s.currentProxyIndex + i) % n + 1)
          endpoint now)).map
        (fun i => ((s.currentProxyIndex + i) % n + 1,
          ((s.currentProxyIndex + i) % n + 1) % n)) := by
  induction l with
  | nil => rfl
  | cons i rest ih =>
    simp only [tryProxyOffsets, List.find?_cons]
    cases havail : isConnectionAvailableForEndpoint s
        ((s.currentProxyIndex + i) % n + 1) endpoint now with
    | true => simp [havail]
    | false =>
      simp only [havail, Bool.false_eq_true, if_false]
      exact ih

theorem getProxyConnections_eq (s : PMState) (c0 : Connection)
    (ps : List Connection) (hs : s.connections = c0 :: ps)
    (h0 : c0.ctype = "direct") (hps : ∀ p ∈ ps, p.ctype ≠ "direct") :
    getProxyConnections s = ps := by
  unfold getProxyConnections
  rw [hs, List.filter_cons_of_neg (by simp [h0])]
  exact List.filter_eq_self.mpr (fun p hp => by simpa using hps p hp)

/-- C5: when the direct connection (index 0) is available for the class it is
chosen and the round-robin cursor is untouched; otherwise the first available
proxy in probing order from the cursor is chosen and the cursor advances just
past it; and when every connection is in cooldown, `createAxiosInstance`
returns the all-in-cooldown object carrying the class's next-available
wait. -/
theorem claim_C5_connection_selection (s : PMState) (url : String) (now : Nat)
    (c0 : Connection) (ps : List Connection)
    (hs : s.connections = c0 :: ps) (h0 : c0.ctype = "direct")
    (hps : ∀ p ∈ ps, p.ctype ≠ "direct") :
    (isConnectionAvailableForEndpoint s 0 (getEndpointName url) now = true →
      getBestConnectionForEndpoint s (getEndpointName url) now
        = some (0, s.currentProxyIndex))
  ∧ (isConnectionAvailableForEndpoint s 0 (getEndpointName url) now = false →
      getBestConnectionForEndpoint s (getEndpointName url) now =
        (firstAvailOffset s (getEndpointName url) now ps.length).map
          (fun i => ((s.currentProxyIndex + i) % ps.length + 1,
            ((s.currentProxyIndex + i) % ps.length + 1) % ps.length)))
  ∧ ((∀ i, i < s.connections.length →
        isConnectionAvailableForEndpoint s i (getEndpointName url) now = false) →
      createAxiosInstanceStep s url now =
        AxiosStep.cooldown
          (getNextAvailableTimeForEndpoint s (getEndpointName url) now)
          (getEndpointName url)) := by
  have hproxy : getProxyConnections s = ps := getProxyConnections_eq s c0 ps hs h0 hps
  refine ⟨?_, ?_, ?_⟩
  · intro h
    simp only [getBestConnectionForEndpoint, h, if_true]
  · intro h
    simp only [getBestConnectionForEndpoint, h, Bool.false_eq_true, if_false, hproxy]
    by_cases hn : ps.length = 0
    · simp only [hn, if_true]
      rw [show firstAvailOffset s (getEndpointName url) now 0 = none from rfl]
      rfl
    · rw [if_neg hn, tryProxyOffsets_eq_find?]
      rfl
  · intro hall
    have hlen : s.connections.length = ps.length + 1 := by rw [hs]; rfl
    have h0avail : isConnectionAvailableForEndpoint s 0 (getEndpointName url) now
        = false := hall 0 (by omega)
    have hbestnone : getBestConnectionForEndpoint s (getEndpointName url) now
        = none := by
      simp only [getBestConnectionForEndpoint, h0avail, Bool.false_eq_true, if_false,
        hproxy]
      by_cases hn : ps.length = 0
      · simp [hn]
      · rw [if_neg hn, tryProxyOffsets_eq_find?, List.find?_eq_none.mpr, Option.map_none']
        intro i _
        have hmod : (s.currentProxyIndex + i) % ps.length < ps.length :=
          Nat.mod_lt _ (Nat.pos_of_ne_zero hn)
        simp [hall ((s.currentProxyIndex + i) % ps.length + 1) (by omega)]
    simp only [createAxiosInstanceStep, hbestnone]

/-- A friends-endpoint URL as built by `checkFriends`. -/
def exFriendsUrl : String :=
  "https://api.steampowered.com/ISteamUser/GetFriendList/v0001/?key=k&steamid=1&relationship=friend"

/-- Direct and first proxy cooled down for `friends`; second proxy free. -/
def exRotationState : PMState :=
  { connections := [⟨"direct", none⟩, ⟨"socks5", some "socks5://a:a@b:1"⟩,
      ⟨"socks5", some "socks5://c:c@d:2"⟩]
    cooldownConns := [⟨0, "direct", none, [("friends", ⟨1000000, "429", some 1, 0, "m", some 2, none⟩)]⟩,
      ⟨1, "socks5", some "socks5://a:a@b:1",
        [("friends", ⟨1000000, "timeout", none, 0, "t", none, some 300000⟩)]⟩,
      ⟨2, "socks5", some "socks5://c:c@d:2", []⟩]
    cooldownDurations := ⟨600000, 300000, 900000, 900000, 86400000⟩
    backoffSequence := [1, 2, 4]
    currentProxyIndex := 0
    backoffLevels := [((0, "friends"), 1)] }

/-- C5 witness: on `exRotationState` the direct connection is cooled down for
`friends`, the round-robin rule picks the second proxy (connection index 2)
and the cursor wraps to 0. -/
theorem claim_C5_connection_selection_witness :
    isConnectionAvailableForEndpoint exRotationState 0 (getEndpointName exFriendsUrl) 100
      = false
  ∧ getBestConnectionForEndpoint exRotationState (getEndpointName exFriendsUrl) 100 =
      (firstAvailOffset exRotationState (getEndpointName exFriendsUrl) 100 2).map
        (fun i => ((exRotationState.currentProxyIndex + i) % 2 + 1,
          ((exRotationState.currentProxyIndex + i) % 2 + 1) % 2))
  ∧ getBestConnectionForEndpoint exRotationState (getEndpointName exFriendsUrl) 100
      = some (2, 0) := by
  have h := claim_C5_connection_selection exRotationState exFriendsUrl 100
    ⟨"direct", none⟩
    [⟨"socks5", some "socks5://a:a@b:1"⟩, ⟨"socks5", some "socks5://c:c@d:2"⟩]
    rfl rfl (by decide)
  exact ⟨by decide, h.2.1 (by decide), by decide⟩

/-! ## Axios client configuration -/

theorem createStep_client_props (s : PMState) (url : String) (now : Nat)
    (cfg : AxiosConfig)
    (h : createAxiosInstanceStep s url now = AxiosStep.client cfg) :
    cfg.timeout = (if getEndpointName url = "inventory" then 25000 else 15000)
  ∧ cfg.headers = ("User-Agent", uaString) ::
      (if cfg.connectionType = "socks5" then
        (if getEndpointName url = "inventory" then secFetchHeaders else [])
       else [])
  ∧ (cfg.hasSocksAgent = true ↔ cfg.connectionType = "socks5") := by
  cases hbest : getBestConnectionForEndpoint s (getEndpointName url) now with
  | none => simp [createAxiosInstanceStep, hbest] at h
  | some pair =>
    obtain ⟨index, cursor'⟩ := pair
    cases hcget : s.connections.get? index with
    | none =>
      rw [List.get?_eq_getElem?] at hcget
      simp [createAxiosInstanceStep, hbest, hcget] at h
    | some connection =>
      simp only [createAxiosInstanceStep, hbest, hcget] at h
      by_cases hty : connection.ctype = "socks5"
      · rw [if_pos hty] at h
        cases hurl : (match connection.url with
            | some u => strStartsWith u "socks5://"
            | none => false) with
        | false =>
          rw [hurl] at h
          simp at h
        | true =>
          rw [hurl] at h
          simp only [if_true] at h
          obtain rfl : _ = cfg := by injection h
          refine ⟨rfl, ?_, by simp [hty]⟩
          simp [hty, getTimeoutForEndpoint]
      · rw [if_neg hty] at h
        obtain rfl : _ = cfg := by injection h
        refine ⟨rfl, ?_, by simp [hty]⟩
        simp [hty]

/-- C6 (amended): every client built by `createAxiosInstance` uses a
25-second timeout for the inventory class and 15 seconds otherwise, and
always carries the realistic User-Agent header; the `Sec-Fetch-*` headers are
attached exactly when the chosen connection is a SOCKS5 proxy *and* the class
is inventory — direct-connection inventory requests do not carry them. -/
theorem claim_C6_client_configuration (fuel : Nat) (s : PMState) (url : String)
    (now : Nat) (cfg : AxiosConfig)
    (h : createAxiosInstanceFuel fuel s url now = AxiosStep.client cfg) :
    cfg.timeout = (if getEndpointName url = "inventory" then 25000 else 15000)
  ∧ cfg.headers = ("User-Agent", uaString) ::
      (if cfg.connectionType = "socks5" then
        (if getEndpointName url = "inventory" then secFetchHeaders else [])
       else [])
  ∧ (cfg.hasSocksAgent = true ↔ cfg.connectionType = "socks5") := by
  induction fuel generalizing s with
  | zero => exact createStep_client_props s url now cfg h
  | succ n ih =>
    cases hstep : createAxiosInstanceStep s url now with
    | socksRetry s' =>
      rw [show createAxiosInstanceFuel (n + 1) s url now
        = createAxiosInstanceFuel n s' url now by
          simp [createAxiosInstanceFuel, hstep]] at h
      exact ih s' h
    | cooldown w en =>
      rw [show createAxiosInstanceFuel (n + 1) s url now = AxiosStep.cooldown w en by
        simp [createAxiosInstanceFuel, hstep]] at h
      exact absurd h (by simp)
    | client cfg' =>
      rw [show createAxiosInstanceFuel (n + 1) s url now = AxiosStep.client cfg' by
        simp [createAxiosInstanceFuel, hstep]] at h
      obtain rfl : cfg' = cfg := by injection h
      exact createStep_client_props s url now cfg' hstep
    | crash =>
      rw [show createAxiosInstanceFuel (n + 1) s url now = AxiosStep.crash by
        simp [createAxiosInstanceFuel, hstep]] at h
      exact absurd h (by simp)

/-- An inventory URL as built by `checkCsgoInventory`. -/
def exInventoryUrl : String :=
  "https://steamcommunity.com/inventory/76561198000000001/730/2"

/-- The client `createAxiosInstance` builds when the chosen connection is the
SOCKS5 proxy of `exSocksState` and the URL is the inventory endpoint. -/
def exSocksCfg : AxiosConfig :=
  { timeout := 25000
    headers := ("User-Agent", uaString) :: secFetchHeaders
    connectionIndex := 1
    connectionType := "socks5"
    endpointName := "inventory"
    hasSocksAgent := true }

/-- Direct connection cooled down for `inventory`; one healthy SOCKS5 proxy. -/
def exSocksState : PMState :=
  { connections := [⟨"direct", none⟩, ⟨"socks5", some "socks5://u:p@h:1"⟩]
    cooldownConns := [⟨0, "direct", none,
      [("inventory", ⟨1000000, "429", some 1, 0, "m", some 2, none⟩)]⟩,
      ⟨1, "socks5", some "socks5://u:p@h:1", []⟩]
    cooldownDurations := ⟨600000, 300000, 900000, 900000, 86400000⟩
    backoffSequence := [1, 2, 4]
    currentProxyIndex := 0
    backoffLevels := [] }

/-- C6 witness: the SOCKS5 inventory client of `exSocksState` gets the
25-second timeout, the User-Agent, and the `Sec-Fetch-*` headers. -/
theorem claim_C6_client_configuration_witness :
    createAxiosInstanceFuel 0 exSocksState exInventoryUrl 50
      = AxiosStep.client exSocksCfg
  ∧ exSocksCfg.timeout
      = (if getEndpointName exInventoryUrl = "inventory" then 25000 else 15000)
  ∧ exSocksCfg.headers = ("User-Agent", uaString) ::
      (if exSocksCfg.connectionType = "socks5" then
        (if getEndpointName exInventoryUrl = "inventory" then secFetchHeaders else [])
       else [])
  ∧ (exSocksCfg.hasSocksAgent = true ↔ exSocksCfg.connectionType = "socks5") := by
  have hstep : createAxiosInstanceFuel 0 exSocksState exInventoryUrl 50
      = AxiosStep.client exSocksCfg := by decide
  have h := claim_C6_client_configuration 0 exSocksState exInventoryUrl 50
    exSocksCfg hstep
  exact ⟨hstep, h.1, h.2.1, h.2.2⟩

/-- C6 counterexample: for the very same inventory URL dispatched over the
*direct* connection, the built client carries only the User-Agent header — no
`Sec-Fetch-*` headers — contradicting the claim that every inventory-class
request carries them. -/
theorem claim_C6_counterexample :
    getEndpointName exInventoryUrl = "inventory"
  ∧ createAxiosInstanceFuel 0 exDirectOnly exInventoryUrl 50 = AxiosStep.client
      { timeout := 25000
        headers := [("User-Agent", uaString)]
        connectionIndex := 0
        connectionType := "direct"
        endpointName := "inventory"
        hasSocksAgent := false }
  ∧ ("Sec-Fetch-Dest", "empty") ∉ [("User-Agent", uaString)] := by decide

/-! ## next_processable -/

/-- `Object.values(checks)` all terminal (`passed` or `failed`). -/
def allTerminal (p : Profile) : Bool :=
  p.checks.all (fun kv => decide (kv.2 = "passed") || decide (kv.2 = "failed"))

/-- Modelled from the claim's words: first profile with any `to_check`;
failing that, the first with all checks terminal; failing that, the first
with a `deferred` check; else none — three separate priority passes. -/
def nextProcessableClaimSpec (profiles : List Profile) : Option Profile :=
  match profiles.find? (fun p => hasCheckStatus p "to_check") with
  | some p => some p
  | none =>
    match profiles.find? allTerminal with
    | some p => some p
    | none => profiles.find? (fun p => hasCheckStatus p "deferred")

/-- The amended reading: a single forward scan returning the first profile
that has a `to_check` check *or* has all checks terminal, then the deferred
fallback. -/
def nextProcessableAmendedSpec (profiles : List Profile) : Option Profile :=
  match profiles.find? (fun p => hasCheckStatus p "to_check" || allTerminal p) with
  | some p => some p
  | none => profiles.find? (fun p => hasCheckStatus p "deferred")

theorem statusClosed_terminal (p : Profile)
    (h : ∀ kv ∈ p.checks, kv.2 ∈ validStatuses) :
    (!hasCheckStatus p "to_check" && !hasCheckStatus p "deferred") = allTerminal p := by
  unfold hasCheckStatus allTerminal
  apply Bool.eq_iff_iff.mpr
  simp only [Bool.and_eq_true, Bool.not_eq_true', List.any_eq_false, List.all_eq_true,
    decide_eq_true_eq, Bool.or_eq_true]
  constructor
  · rintro ⟨htc, hdef⟩ kv hkv
    have hmem := h kv hkv
    simp only [validStatuses, List.mem_cons, List.not_mem_nil, or_false] at hmem
    rcases hmem with h1 | h1 | h1 | h1
    · exact absurd h1 (htc kv hkv)
    · exact Or.inl (by simp [h1])
    · exact Or.inr (by simp [h1])
    · exact absurd h1 (hdef kv hkv)
  · intro hall
    constructor
    · intro kv hkv
      rcases hall kv hkv with h1 | h1 <;> simp [h1]
    · intro kv hkv
      rcases hall kv hkv with h1 | h1 <;> simp [h1]

/-- C2 (amended): when every stored status lies in the closed set,
`getNextProcessableProfile` equals the single-scan rule: the first profile in
queue order that either has a `to_check` check or has all checks terminal
(no categorical priority between the two), then the first profile with a
`deferred` check, else none. -/
theorem claim_C2_next_processable (profiles : List Profile)
    (h : ∀ p ∈ profiles, ∀ kv ∈ p.checks, kv.2 ∈ validStatuses) :
    getNextProcessableProfile profiles = nextProcessableAmendedSpec profiles := by
  cases profiles with
  | nil => rfl
  | cons a l =>
    have hfind : (a :: l).find? (fun p => hasCheckStatus p "to_check"
          || (!hasCheckStatus p "to_check" && !hasCheckStatus p "deferred"))
        = (a :: l).find? (fun p => hasCheckStatus p "to_check" || allTerminal p) := by
      apply find?_congr_pred
      intro p hp
      rw [statusClosed_terminal p (h p hp)]
    unfold getNextProcessableProfile nextProcessableAmendedSpec
    rw [show (a :: l).isEmpty = false from rfl, hfind]
    rfl

/-- A profile whose seven checks are all `passed`. -/
def exProfileDone : Profile :=
  ⟨"76561198000000002", "bob", 0,
   [("animated_avatar", "passed"), ("avatar_frame", "passed"),
    ("mini_profile_background", "passed"), ("profile_background", "passed"),
    ("steam_level", "passed"), ("friends", "passed"), ("csgo_inventory", "passed")]⟩

/-- A freshly enqueued profile: all seven checks `to_check`. -/
def exProfileTodo : Profile := ⟨"76561198000000003", "carol", 0, freshChecks⟩

/-- C2 witness: on a two-profile queue with closed statuses the scan equals
the amended specification. -/
theorem claim_C2_next_processable_witness :
    getNextProcessableProfile [exProfileTodo, exProfileDone]
      = nextProcessableAmendedSpec [exProfileTodo, exProfileDone] :=
  claim_C2_next_processable [exProfileTodo, exProfileDone] (by decide)

/-- C2 counterexample: with an all-terminal profile queued ahead of a profile
that still has `to_check` checks, the code returns the all-terminal profile,
while the claim's priority order demands the `to_check` profile. -/
theorem claim_C2_counterexample :
    getNextProcessableProfile [exProfileDone, exProfileTodo] = some exProfileDone
  ∧ nextProcessableClaimSpec [exProfileDone, exProfileTodo] = some exProfileTodo
  ∧ exProfileDone ≠ exProfileTodo
  ∧ hasCheckStatus exProfileTodo "to_check" = true
  ∧ hasCheckStatus exProfileDone "to_check" = false := by decide

/-! ## The check-set invariant and queue operations -/

/-- Every queued profile has exactly the seven check names, in declaration
order. -/
def checksInvariant (profiles : List Profile) : Prop :=
  ∀ p ∈ profiles, p.checks.map Prod.fst = checkNames

theorem addProfileToQueue_of_found (profiles : List Profile) (steamId : String)
    (username : Option String) (apiCheck : Option (Bool × Bool)) (now : Nat)
    (existing : Profile)
    (hfind : profiles.find? (fun p => decide (p.steam_id = steamId)) = some existing) :
    addProfileToQueue profiles steamId username apiCheck now
      = (profiles, some existing) := by
  unfold addProfileToQueue
  rw [hfind]

theorem addProfileToQueue_of_absent (profiles : List Profile) (steamId : String)
    (username : Option String) (apiCheck : Option (Bool × Bool)) (now : Nat)
    (hfind : profiles.find? (fun p => decide (p.steam_id = steamId)) = none) :
    addProfileToQueue profiles steamId username apiCheck now =
      (if dbSaysExists apiCheck then (profiles, none)
       else if validUsername username = false then (profiles, none)
       else (profiles ++ [⟨steamId, username.getD "", now, freshChecks⟩],
             some ⟨steamId, username.getD "", now, freshChecks⟩)) := by
  unfold addProfileToQueue
  rw [hfind]

theorem updateProfileCheck_of_none (profiles : List Profile)
    (steamId checkName status : String)
    (hidx : profiles.findIdx? (fun p => decide (p.steam_id = steamId)) = none) :
    updateProfileCheck profiles steamId checkName status = (profiles, false) := by
  unfold updateProfileCheck
  rw [hidx]

theorem updateProfileCheck_of_idx (profiles : List Profile)
    (steamId checkName status : String) (i : Nat)
    (hidx : profiles.findIdx? (fun p => decide (p.steam_id = steamId)) = some i) :
    updateProfileCheck profiles steamId checkName status =
      (if validStatuses.contains status = false then (profiles, false)
       else match profiles.get? i with
         | none => (profiles, false)
         | some p =>
           (profiles.set i { p with checks := alistSet p.checks checkName status },
            true)) := by
  unfold updateProfileCheck
  rw [hidx]

/-- C8 (amended): the seven-checks invariant is preserved by `add` and
`remove` unconditionally and by `update_check` whenever the check name is one
of the seven; an unknown *status* is rejected without touching the queue —
but `updateProfileCheck` does not validate the check *name*, so an unknown
name with a valid status appends an eighth key (see the counterexample). -/
theorem claim_C8_checks_invariant (profiles : List Profile) (steamId : String)
    (username : Option String) (apiCheck : Option (Bool × Bool)) (now : Nat)
    (checkName status : String)
    (hinv : checksInvariant profiles) :
    checksInvariant (addProfileToQueue profiles steamId username apiCheck now).1
  ∧ checksInvariant (removeProfileFromQueue profiles steamId).1
  ∧ (checkName ∈ checkNames →
      checksInvariant (updateProfileCheck profiles steamId checkName status).1)
  ∧ (status ∉ validStatuses →
      updateProfileCheck profiles steamId checkName status = (profiles, false)) := by
  refine ⟨?_, ?_, ?_, ?_⟩
  · cases hfind : profiles.find? (fun p => decide (p.steam_id = steamId)) with
    | some existing =>
      rw [addProfileToQueue_of_found profiles steamId username apiCheck now existing hfind]
      exact hinv
    | none =>
      rw [addProfileToQueue_of_absent profiles steamId username apiCheck now hfind]
      cases hdb : dbSaysExists apiCheck with
      | true => simpa [hdb] using hinv
      | false =>
        cases hvu : validUsername username with
        | false => simpa [hdb, hvu] using hinv
        | true =>
          simp only [hdb, hvu, Bool.false_eq_true, if_false, Bool.true_eq_false]
          intro q hq
          rcases List.mem_append.mp hq with hq' | hq'
          · exact hinv q hq'
          · have := List.mem_singleton.mp hq'
            subst this
            rfl
  · unfold removeProfileFromQueue
    by_cases hlen : (profiles.filter (fun p => decide (p.steam_id ≠ steamId))).length
        < profiles.length
    · rw [if_pos hlen]
      intro q hq
      exact hinv q (List.mem_of_mem_filter hq)
    · rw [if_neg hlen]
      exact hinv
  · intro hname
    cases hidx : profiles.findIdx? (fun p => decide (p.steam_id = steamId)) with
    | none =>
      rw [updateProfileCheck_of_none profiles steamId checkName status hidx]
      exact hinv
    | some profileIndex =>
      rw [updateProfileCheck_of_idx profiles steamId checkName status profileIndex hidx]
      by_cases hval : validStatuses.contains status = false
      · rw [if_pos hval]
        exact hinv
      · rw [if_neg hval]
        cases hget : profiles.get? profileIndex with
        | none => exact hinv
        | some p =>
          have hp : p ∈ profiles := List.get?_mem hget
          have hkeys := hinv p hp
          have hany : p.checks.any (fun kv => decide (kv.1 = checkName)) = true := by
            rw [← hkeys] at hname
            obtain ⟨kv, hkv, hfst⟩ := List.mem_map.mp hname
            exact List.any_eq_true.mpr ⟨kv, hkv, by simp [hfst]⟩
          intro q hq
          rcases List.mem_or_eq_of_mem_set hq with hq' | hq'
          · exact hinv q hq'
          · subst hq'
            rw [show ({ p with checks := alistSet p.checks checkName status } :
                Profile).checks = alistSet p.checks checkName status from rfl,
              alistSet_keys_of_mem _ _ _ hany]
            exact hkeys
  · intro hstat
    have hval : validStatuses.contains status = false := by
      cases hc : validStatuses.contains status with
      | false => rfl
      | true => exact absurd (List.mem_of_elem_eq_true hc) hstat
    cases hidx : profiles.findIdx? (fun p => decide (p.steam_id = steamId)) with
    | none =>
      exact updateProfileCheck_of_none profiles steamId checkName status hidx
    | some profileIndex =>
      rw [updateProfileCheck_of_idx profiles steamId checkName status profileIndex hidx,
        if_pos hval]

/-- C8 witness: on a queue satisfying the invariant, `add`, `remove` and a
known-name `update_check` keep every profile's check-name list at the fixed
seven. -/
theorem claim_C8_checks_invariant_witness :
    checksInvariant
      (addProfileToQueue [exProfileTodo] "76561198000000003" (some "dan") none 7).1
  ∧ checksInvariant (removeProfileFromQueue [exProfileTodo] "76561198000000003").1
  ∧ checksInvariant
      (updateProfileCheck [exProfileTodo] "76561198000000003" "friends" "passed").1 := by
  have hinv : checksInvariant [exProfileTodo] := by
    intro p hp
    have := List.mem_singleton.mp hp
    subst this
    rfl
  have h := claim_C8_checks_invariant [exProfileTodo] "76561198000000003"
    (some "dan") none 7 "friends" "passed" hinv
  exact ⟨h.1, h.2.1, h.2.2.1 (by decide)⟩

/-- C8 counterexample: `updateProfileCheck` with the unknown check name
`"bogus"` and a valid status succeeds and appends an eighth key, breaking the
seven-name invariant instead of skipping the update. -/
theorem claim_C8_counterexample :
    (updateProfileCheck [exProfileTodo] "76561198000000003" "bogus" "passed").2 = true
  ∧ ((updateProfileCheck [exProfileTodo] "76561198000000003" "bogus" "passed").1.map
      (fun p => p.checks.map Prod.fst)) = [checkNames ++ ["bogus"]]
  ∧ checkNames ++ ["bogus"] ≠ checkNames := by decide

/-! ## Idempotence of add and the invalid-username guard -/

/-- C9: from a queue without the id, `add(id, u)` then `add(id, u')` leaves
the queue exactly as after the first add, with exactly one profile carrying
the id; that profile keeps the original username `u` and has all seven checks
in `to_check`. -/
theorem claim_C9_add_idempotent (profiles : List Profile)
    (steamId u u' : String) (now now' : Nat)
    (habsent : profiles.find? (fun p => decide (p.steam_id = steamId)) = none)
    (hu : u ≠ "") :
    (addProfileToQueue (addProfileToQueue profiles steamId (some u) none now).1
        steamId (some u') none now').1
      = (addProfileToQueue profiles steamId (some u) none now).1
  ∧ (((addProfileToQueue (addProfileToQueue profiles steamId (some u) none now).1
        steamId (some u') none now').1).filter
      (fun p => decide (p.steam_id = steamId))).length = 1
  ∧ (∀ p ∈ (addProfileToQueue (addProfileToQueue profiles steamId (some u) none now).1
        steamId (some u') none now').1,
      p.steam_id = steamId → p.username = u ∧ p.checks = freshChecks) := by
  have hnotmem : ∀ p ∈ profiles, ¬ (decide (p.steam_id = steamId) = true) :=
    List.find?_eq_none.mp habsent
  have hq1 : (addProfileToQueue profiles steamId (some u) none now).1
      = profiles ++ [⟨steamId, u, now, freshChecks⟩] := by
    rw [addProfileToQueue_of_absent profiles steamId (some u) none now habsent]
    simp [validUsername, hu, dbSaysExists]
  have hfind2 : (profiles ++ [(⟨steamId, u, now, freshChecks⟩ : Profile)]).find?
      (fun p => decide (p.steam_id = steamId)) = some ⟨steamId, u, now, freshChecks⟩ := by
    rw [find?_append_of_none _ _ _ habsent]
    simp
  have hq2 : (addProfileToQueue (profiles ++ [⟨steamId, u, now, freshChecks⟩])
      steamId (some u') none now').1 = profiles ++ [⟨steamId, u, now, freshChecks⟩] := by
    rw [addProfileToQueue_of_found _ steamId (some u') none now' _ hfind2]
  rw [hq1, hq2]
  refine ⟨rfl, ?_, ?_⟩
  · rw [List.filter_append]
    rw [List.filter_eq_nil_iff.mpr hnotmem]
    simp
  · intro p hp hpid
    rcases List.mem_append.mp hp with hp' | hp'
    · exact absurd (by simpa using hpid) (hnotmem p hp')
    · have := List.mem_singleton.mp hp'
      subst this
      exact ⟨rfl, rfl⟩

/-- C9 witness: adding the same id twice to an empty queue, with different
usernames, yields one profile with the first username and fresh checks. -/
theorem claim_C9_add_idempotent_witness :
    (addProfileToQueue (addProfileToQueue [] "76561198000000004" (some "erin") none 1).1
        "76561198000000004" (some "frank") none 2).1
      = (addProfileToQueue [] "76561198000000004" (some "erin") none 1).1
  ∧ (((addProfileToQueue (addProfileToQueue [] "76561198000000004" (some "erin") none 1).1
        "76561198000000004" (some "frank") none 2).1).filter
      (fun p => decide (p.steam_id = "76561198000000004"))).length = 1 := by
  have h := claim_C9_add_idempotent [] "76561198000000004" "erin" "frank" 1 2 rfl
    (by decide)
  exact ⟨h.1, h.2.1⟩

/-- C10 (amended): with a missing/null/non-string (or empty) username,
`addProfileToQueue` never changes the queue; it returns `null` when the id is
not already queued — but when a profile with the id exists, the duplicate
check fires *before* username validation and the existing profile, not
`null`, is returned (see the counterexample). -/
theorem claim_C10_add_invalid_username (profiles : List Profile)
    (steamId : String) (username : Option String)
    (apiCheck : Option (Bool × Bool)) (now : Nat)
    (hinvalid : validUsername username = false) :
    (addProfileToQueue profiles steamId username apiCheck now).1 = profiles
  ∧ (profiles.find? (fun p => decide (p.steam_id = steamId)) = none →
      (addProfileToQueue profiles steamId username apiCheck now).2 = none) := by
  cases hfind : profiles.find? (fun p => decide (p.steam_id = steamId)) with
  | some existing =>
    rw [addProfileToQueue_of_found profiles steamId username apiCheck now existing hfind]
    exact ⟨rfl, fun hnone => absurd hnone (by simp)⟩
  | none =>
    rw [addProfileToQueue_of_absent profiles steamId username apiCheck now hfind]
    cases hdb : dbSaysExists apiCheck with
    | true => exact ⟨by simp, fun _ => by simp⟩
    | false => exact ⟨by simp [hinvalid], fun _ => by simp [hinvalid]⟩

/-- C10 witness: adding an id that is not queued with a `null` username
returns `null` and leaves the queue untouched. -/
theorem claim_C10_add_invalid_username_witness :
    (addProfileToQueue [exProfileTodo] "76561198000000008" none none 5).1
      = [exProfileTodo]
  ∧ (addProfileToQueue [exProfileTodo] "76561198000000008" none none 5).2 = none := by
  have h := claim_C10_add_invalid_username [exProfileTodo] "76561198000000008"
    none none 5 rfl
  exact ⟨h.1, h.2 (by decide)⟩

/-- C10 counterexample: when the id is already queued, `addProfileToQueue`
with a `null` username returns the existing profile — not `null` — because
the duplicate check precedes username validation (the queue is still
unchanged). -/
theorem claim_C10_counterexample :
    validUsername none = false
  ∧ (addProfileToQueue [exProfileTodo] "76561198000000003" none none 5).2
      = some exProfileTodo
  ∧ (addProfileToQueue [exProfileTodo] "76561198000000003" none none 5).1
      = [exProfileTodo]
  ∧ some exProfileTodo ≠ (none : Option Profile) := by decide


/-! ## The private-profile short-circuit -/

theorem runChecks_cons_auto (oracle : String → CheckOutcome) (name : String)
    (rest : List String)
    (hname : (decide (name = "friends") || decide (name = "csgo_inventory")) = true) :
    runChecks oracle (name :: rest) true
      = SchedEvent.update name "passed" :: runChecks oracle rest true := by
  simp only [runChecks, hname, Bool.true_and, if_true]

theorem runChecks_private_dispatch_not_mem (oracle : String → CheckOutcome)
    (checks : List String) (c : String)
    (hc : c = "friends" ∨ c = "csgo_inventory") :
    SchedEvent.dispatch c ∉ runChecks oracle checks true := by
  induction checks with
  | nil => simp [runChecks]
  | cons name rest ih =>
    by_cases hrl : (decide (name = "friends") || decide (name = "csgo_inventory")) = true
    · rw [runChecks_cons_auto oracle name rest hrl]
      intro hmem
      rcases List.mem_cons.mp hmem with h | h
      · exact absurd h (by simp)
      · exact ih h
    · have hguard : (true && (decide (name = "friends")
          || decide (name = "csgo_inventory"))) = false := by
        rw [Bool.true_and]
        exact eq_false_of_ne_true hrl
      have hnc : c ≠ name := by
        rcases hc with rfl | rfl <;> intro hh <;> rw [← hh] at hrl <;> simp at hrl
      simp only [runChecks, hguard, Bool.false_eq_true, if_false, ite_self]
      split_ifs <;> intro hmem <;> rcases List.mem_append.mp hmem with h | h <;>
        simp at h <;>
        first
          | exact hnc h
          | exact ih h

theorem runChecks_private_update_mem (oracle : String → CheckOutcome)
    (checks : List String)
    (hnofail : ∀ x ∈ checks, (oracle x).success = true → (oracle x).passed = true)
    (c : String) (hcmem : c ∈ checks) (hc : c = "friends" ∨ c = "csgo_inventory") :
    SchedEvent.update c "passed" ∈ runChecks oracle checks true := by
  induction checks with
  | nil => simp at hcmem
  | cons name rest ih =>
    have ihrest := fun hcr => ih
      (fun x hx => hnofail x (List.mem_cons_of_mem name hx)) hcr
    rcases List.mem_cons.mp hcmem with rfl | hcrest
    · have hrl : (decide (c = "friends") || decide (c = "csgo_inventory")) = true := by
        rcases hc with rfl | rfl <;> simp
      rw [runChecks_cons_auto oracle c rest hrl]
      exact List.mem_cons_self _ _
    · by_cases hrl : (decide (name = "friends") || decide (name = "csgo_inventory")) = true
      · rw [runChecks_cons_auto oracle name rest hrl]
        exact List.mem_cons_of_mem _ (ihrest hcrest)
      · have hguard : (true && (decide (name = "friends")
            || decide (name = "csgo_inventory"))) = false := by
          rw [Bool.true_and]
          exact eq_false_of_ne_true hrl
        simp only [runChecks, hguard, Bool.false_eq_true, if_false, ite_self]
        by_cases hk : knownChecks.contains name = true
        · by_cases hsucc : (oracle name).success = true
          · have hpassed := hnofail name (List.mem_cons_self name rest) hsucc
            simp only [hk, if_true, hsucc, hpassed, Bool.not_true, Bool.false_eq_true,
              if_false]
            exact List.mem_append_right _ (List.mem_cons_of_mem _ (ihrest hcrest))
          · have hsucc' : (oracle name).success = false := eq_false_of_ne_true hsucc
            simp only [hk, if_true, hsucc', Bool.not_false, if_true]
            exact List.mem_append_right _ (List.mem_cons_of_mem _ (ihrest hcrest))
        · have hk' : knownChecks.contains name = false := eq_false_of_ne_true hk
          simp only [hk', Bool.false_eq_true, if_false, Bool.not_false, if_true]
          exact List.mem_append_right _ (List.mem_cons_of_mem _ (ihrest hcrest))

/-- C3: when `steam_level` is the next `to_check` check and the validator
reports the empty-response (private) outcome, the scheduler marks it passed,
flips the private flag, and — provided no later check fails validation (which
would remove the profile and stop the loop) — every subsequent `friends` and
`csgo_inventory` check in the run is set to `passed` with no upstream
dispatch for it. -/
theorem claim_C3_private_short_circuit (oracle : String → CheckOutcome)
    (rest : List String)
    (hlevel : oracle "steam_level" = privateLevelOutcome)
    (hnofail : ∀ c ∈ rest, (oracle c).success = true → (oracle c).passed = true) :
    runChecks oracle ("steam_level" :: rest) false
      = SchedEvent.dispatch "steam_level" :: SchedEvent.update "steam_level" "passed"
        :: runChecks oracle rest true
  ∧ (∀ c ∈ rest, (c = "friends" ∨ c = "csgo_inventory") →
      SchedEvent.update c "passed" ∈ runChecks oracle rest true
      ∧ SchedEvent.dispatch c ∉ runChecks oracle rest true) := by
  constructor
  · have hk : knownChecks.contains "steam_level" = true := by decide
    have hdp : (decide (("steam_level" : String) = "steam_level")
        && detectsPrivate privateLevelOutcome) = true := by decide
    simp only [runChecks, Bool.false_and, Bool.false_eq_true, if_false, hk, if_true,
      hlevel, hdp, privateLevelOutcome]
    rfl
  · intro c hcmem hc
    exact ⟨runChecks_private_update_mem oracle rest hnofail c hcmem hc,
      runChecks_private_dispatch_not_mem oracle rest c hc⟩

/-- The validator oracle of spec scenario 2: `steam_level` answers with the
empty-response private outcome, every other check succeeds and passes. -/
def exOracle : String → CheckOutcome := fun checkName =>
  if checkName = "steam_level" then privateLevelOutcome
  else { success := true, passed := true, deferredFlag := false, note := none }

/-- C3 witness: with `exOracle` and the run list
`[steam_level, friends, csgo_inventory]`, the short-circuit fires: `friends`
is auto-passed and never dispatched after the private `steam_level` result. -/
theorem claim_C3_private_short_circuit_witness :
    runChecks exOracle ["steam_level", "friends", "csgo_inventory"] false
      = SchedEvent.dispatch "steam_level" :: SchedEvent.update "steam_level" "passed"
        :: runChecks exOracle ["friends", "csgo_inventory"] true
  ∧ SchedEvent.update "friends" "passed"
      ∈ runChecks exOracle ["friends", "csgo_inventory"] true
  ∧ SchedEvent.dispatch "friends"
      ∉ runChecks exOracle ["friends", "csgo_inventory"] true := by
  have h := claim_C3_private_short_circuit exOracle ["friends", "csgo_inventory"]
    rfl (by decide)
  exact ⟨h.1, (h.2 "friends" (by decide) (Or.inl rfl)).1,
    (h.2 "friends" (by decide) (Or.inl rfl)).2⟩

end SteamProc
